import Mathlib

/-!
Verification of the A.I.D.S / Project Aegis decision pipeline against its
natural-language specification.

The development shallowly embeds the Python sources:

* `quantum_integration` — `shared/quantum_integration.py` (the candidate
  selection engine; the `AgenticAIs` and `Antigravity-AgenticAIs copy`
  variants are identical apart from the copy additionally trying the real
  quantum path first, which is modelled by `_run_real_quantum`).
* `safety_tools` — `Agent-3/tools/safety_tools.py` (`evaluate_safety_score`).
* `messaging` — `shared/messaging.py` (the in-process pub/sub event bus).
* `orchestrator` — `orchestrator.py` together with
  `shared/state_schema.py` (`create_initial_state`) and `shared/config.py`.

Python floats are modelled as exact rationals (`ℚ`); rational constants are
written with `mkRat` (`mkRat 7 10` is `0.7`) so that concrete computations
reduce in the kernel.  Dictionary fields that the modelled code reads with
`dict.get(key, default)` are modelled as `Option` fields read with `getD`.
LLM calls, the database, wall-clock timestamps and stdout printing are
irrelevant to every modelled control path and are omitted; the values the
LLM answers contribute (risk scores, planner candidates, validator
decisions) enter as explicit parameters.
-/

deriving instance DecidableEq for Except

namespace quantum_integration

/-- One candidate dictionary, as consumed by `run_quantum_optimization` and
`prepare_candidates_for_quantum`.  Each field is optional, mirroring the
Python dict reads `c.get('validity', True)`, `c.get('score', 0)`, etc. -/
structure Candidate where
  mk ::
  id : Option Nat
  velocity_km_s : Option ℚ
  angle_degrees : Option ℚ
  impactor_mass_kg : Option ℚ
  estimated_fuel_kg : Option ℚ
  estimated_miss_km : Option ℚ
  score : Option ℚ
  validity : Option Bool
  strategy : Option String
deriving DecidableEq

/-- Candidate with only id, score and validity set (the shape used by the
orchestration-level tests of the selection engine). -/
def candOf (i : Nat) (s : ℚ) (v : Bool) : Candidate :=
  ⟨some i, none, none, none, none, none, some s, some v, none⟩

/-- The `oracle_constraints` dictionary.  Fields are optional, mirroring
`constraints.get('max_fuel', 5000)` and friends. -/
structure Constraints where
  mk ::
  max_velocity : Option ℚ
  min_velocity : Option ℚ
  max_fragmentation : Option ℚ
  max_fuel : Option ℚ
deriving DecidableEq

/-- `_calculate_candidate_score`: deterministic scoring of a candidate from
its tunable parameters.  `mkRat 1 2` is the Python `0.5` base score and so
on; `max 0 (min 1 score)` is the final clamp `max(0.0, min(1.0, score))`.
The `constraints` argument is `Option` because Python's `if constraints:`
treats a missing (or empty) dict as absent. -/
def _calculate_candidate_score (candidate : Candidate) (constraints : Option Constraints) : ℚ :=
  let score : ℚ := mkRat 1 2
  let velocity := candidate.velocity_km_s.getD 10
  let score :=
    if 10 ≤ velocity ∧ velocity ≤ 15 then score + mkRat 1 5
    else if velocity < 8 ∨ velocity > 20 then score - mkRat 1 5
    else score
  let angle := candidate.angle_degrees.getD 30
  let score :=
    if 15 ≤ angle ∧ angle ≤ 45 then score + mkRat 1 5
    else if angle < 10 ∨ angle > 60 then score - mkRat 1 10
    else score
  let score :=
    match constraints with
    | none => score
    | some cons =>
      let fuel := candidate.estimated_fuel_kg.getD 3000
      let max_fuel := cons.max_fuel.getD 5000
      if fuel < max_fuel * mkRat 7 10 then score + mkRat 1 10
      else if fuel > max_fuel then score - mkRat 3 10
      else score
  max 0 (min 1 score)

/-- One comparison step of Python's `max(iterable, key=...)` over the valid
indices, as used by both `_run_classical_fallback` and `_run_real_quantum`:

    max((i for i, c in enumerate(candidates) if c.get('validity', True)),
        key=lambda i: candidates[i].get('score', 0))

The accumulator holds the current best `(index, score)`; an invalid entry is
filtered out, and a valid one replaces the accumulator only on a strictly
greater score, so ties keep the earliest index, exactly as CPython's `max`
does. -/
def maxStep (acc : Option (Nat × ℚ)) (p : Nat × Candidate) : Option (Nat × ℚ) :=
  if p.2.validity.getD true then
    match acc with
    | none => some (p.1, p.2.score.getD 0)
    | some (bi, bs) =>
      if p.2.score.getD 0 > bs then some (p.1, p.2.score.getD 0) else some (bi, bs)
  else acc

/-- The whole `max(..., key=...)` call: fold `maxStep` over the enumerated
candidates (`none` when the generator is empty, where Python raises — the
two callers guard that case). -/
def bestValidAux (acc : Option (Nat × ℚ)) (l : List (Nat × Candidate)) : Option (Nat × ℚ) :=
  l.foldl maxStep acc

/-- Index of the best-scoring valid candidate, `none` when no candidate is
valid (in which case `_run_classical_fallback` falls back to index 0 and
`_run_real_quantum` raises). -/
def best_valid_index (candidates : List Candidate) : Option Nat :=
  (bestValidAux none candidates.enum).map (·.1)

/-- Result dictionary of the search step (`optimal_candidate` and
`execution_time_ms` are attached later by `run_quantum_optimization`). -/
structure QuantumResult where
  mk ::
  optimal_index : Nat
  success_probability : ℚ
  qubits_used : Nat
  iterations : Nat
  quantum_advantage : ℚ
  is_classical_fallback : Bool
deriving DecidableEq

/-- `_run_classical_fallback`: deterministic mode.  Returns the index of the
highest-scoring valid candidate, or index 0 when no candidate is valid, with
`success_probability = 1.0`, `iterations = 16`, `quantum_advantage = 1.0`. -/
def _run_classical_fallback (candidates : List Candidate) : QuantumResult :=
  match bestValidAux none candidates.enum with
  | none => ⟨0, 1, 0, 16, 1, true⟩
  | some (optimal_idx, _) => ⟨optimal_idx, 1, 0, 16, 1, true⟩

/-- The most-measured state of the 2048-shot histogram: Python's
`max(counts, key=counts.get)`.  The iteration order of the qiskit counts
dict is not specified; the model fixes index order 0..15, so ties resolve to
the smallest index (every theorem that depends on the winner uses a
histogram with a unique maximum, where any order agrees). -/
def measuredIndex (counts : Nat → Nat) : Nat :=
  (List.range 16).foldl (fun best i => if counts i > counts best then i else best) 0

/-- `_run_real_quantum` (the copy's amplification mode), with the quantum
randomness made explicit: `counts` is the measurement histogram produced by
the 2048-shot Grover simulation (3 = `round(π/4·√16)` iterations over 16
states leave every basis state with a nonzero amplitude, so every histogram
summing to 2048 is a possible outcome).  The first component of the result
is the oracle target: the circuit marks the precomputed best valid index.
The returned dict, however, takes `optimal_index` from the most-measured
state, not from the oracle target.  Raises when no candidate is valid. -/
def _run_real_quantum (candidates : List Candidate) (counts : Nat → Nat) :
    Except String (Nat × QuantumResult) :=
  match best_valid_index candidates with
  | none => .error "No valid candidates found"
  | some best_idx =>
    let iterations := 3
    let measured_index := measuredIndex counts
    .ok (best_idx,
      ⟨measured_index, mkRat (counts measured_index) 2048, 4, iterations, mkRat 16 3, false⟩)

/-- The in-place field defaulting loop at the top of
`run_quantum_optimization`: missing `id` becomes the position, missing
`validity` becomes `True`, missing `score` is computed by
`_calculate_candidate_score`. -/
def fillRequiredFields (constraints : Option Constraints) (candidates : List Candidate) :
    List Candidate :=
  candidates.mapIdx fun i c =>
    ⟨some (c.id.getD i), c.velocity_km_s, c.angle_degrees, c.impactor_mass_kg,
      c.estimated_fuel_kg, c.estimated_miss_km,
      some (c.score.getD (_calculate_candidate_score c constraints)),
      some (c.validity.getD true), c.strategy⟩

/-- Full result of `run_quantum_optimization` (the `execution_time_ms`
wall-clock field is omitted). -/
structure SelectResult where
  mk ::
  result : QuantumResult
  optimal_candidate : Option Candidate
deriving DecidableEq

/-- `run_quantum_optimization` (the `AgenticAIs` variant, which always uses
the classical fallback): the only input-contract check is
`len(candidates) != 16`, which raises `ValueError`; then fields are
defaulted in place and the classical fallback selects the winner. -/
def run_quantum_optimization (candidates : List Candidate)
    (oracle_constraints : Option Constraints) : Except String SelectResult :=
  if candidates.length ≠ 16 then
    .error "Exactly 16 candidates required"
  else
    let filled := fillRequiredFields oracle_constraints candidates
    let result := _run_classical_fallback filled
    .ok ⟨result, filled[result.optimal_index]?⟩

/-- One padding entry appended by `prepare_candidates_for_quantum` when
fewer than 16 candidates were produced (`score = 0.1`, invalid). -/
def paddingCandidate (i : Nat) : Candidate :=
  ⟨some i, some 10, some 30, some 500, some 3000, some 10000, some (mkRat 1 10), some false,
    some "padding"⟩

/-- `prepare_candidates_for_quantum`: formats the first 16 raw candidates
(validity from the velocity constraints; `(velocity / 20) * 100 > max_frag`
is written `velocity * 5 > max_frag`, the same rational), then pads with
invalid placeholder entries up to length 16. -/
def prepare_candidates_for_quantum (raw_candidates : List Candidate)
    (constraints : Constraints) : List Candidate :=
  let formatted := (raw_candidates.take 16).mapIdx fun i c =>
    let velocity := c.velocity_km_s.getD 10
    let angle := c.angle_degrees.getD 30
    let is_valid := true
    let is_valid := if velocity > constraints.max_velocity.getD 25 then false else is_valid
    let is_valid := if velocity < constraints.min_velocity.getD 5 then false else is_valid
    let is_valid :=
      if velocity * 5 > constraints.max_fragmentation.getD 100 then false else is_valid
    ⟨some i, some (c.velocity_km_s.getD velocity), some (c.angle_degrees.getD angle),
      some (c.impactor_mass_kg.getD 500), some (c.estimated_fuel_kg.getD 3000),
      some (c.estimated_miss_km.getD 15000),
      some (_calculate_candidate_score c (some constraints)), some is_valid,
      some (c.strategy.getD "kinetic")⟩
  (formatted ++ (List.range (16 - formatted.length)).map
    (fun j => paddingCandidate (formatted.length + j))).take 16

end quantum_integration

namespace safety_tools

/-- Result dictionary of `evaluate_safety_score`.  The human-readable
`reasoning` / `final_decision` strings and the `round(·, 2)` presentation
rounding of `safety_score` are omitted; the failed checks are named by the
`checks_failed` labels, which is also what the reasoning text enumerates. -/
structure SafetyScoreResult where
  mk ::
  safety_score : ℚ
  recommendation : String
  checks_passed : List String
  checks_failed : List String
  is_approved : Bool
deriving DecidableEq

/-- `evaluate_safety_score`: the three threshold checks of the Safety
Validation stage, in source order.  `mkRat 7 10` is the Python `0.70`
confidence threshold.  The verdict is `APPROVE` exactly when no check
failed. -/
def evaluate_safety_score (fragmentation_risk_pct deflection_distance_km
    quantum_confidence : ℚ) : SafetyScoreResult :=
  let fragPass := fragmentation_risk_pct < 100
  let deflPass := deflection_distance_km ≥ 10000
  let confPass := quantum_confidence ≥ mkRat 7 10
  let checks_passed :=
    (if fragPass then ["FRAGMENTATION_SAFE"] else []) ++
    (if deflPass then ["DEFLECTION_SUFFICIENT"] else []) ++
    (if confPass then ["CONFIDENCE_HIGH"] else [])
  let checks_failed :=
    (if fragPass then [] else ["FRAGMENTATION_CRITICAL"]) ++
    (if deflPass then [] else ["DEFLECTION_INSUFFICIENT"]) ++
    (if confPass then [] else ["CONFIDENCE_LOW"])
  let total_checks := checks_passed.length + checks_failed.length
  let safety_score := mkRat checks_passed.length total_checks
  let recommendation := if checks_failed.length = 0 then "APPROVE" else "REJECT"
  ⟨safety_score, recommendation, checks_passed, checks_failed, recommendation = "APPROVE"⟩

end safety_tools

namespace messaging

/-- A subscriber callback, invoked with the topic and the payload.  A
callback either returns an observable effect (`δ`) or raises (`ε`); the
remaining behaviour of Python callbacks is irrelevant to the bus. -/
def Callback (π ε δ : Type) : Type := String → π → Except ε δ

/-- The body of `publish`'s delivery loop over the snapshot of the
subscriber list:

    for cb in listeners:
        try: cb(topic, payload)
        except Exception: continue

Each callback is invoked once, in list order; a raising callback is skipped
and the loop continues.  The return type (`List δ`, the effects of the
successful callbacks in order, with no error case) is the non-propagation of
subscriber exceptions to the publisher. -/
def publishList {π ε δ : Type} (topic : String) (payload : π) :
    List (Callback π ε δ) → List δ
  | [] => []
  | cb :: rest =>
    match cb topic payload with
    | .ok d => d :: publishList topic payload rest
    | .error _ => publishList topic payload rest

/-- The `_subscribers` mapping from topic to its callback list (a missing
topic is the empty list, as with `_subscribers.get(topic, [])`). -/
def Bus (π ε δ : Type) : Type := String → List (Callback π ε δ)

/-- `subscribe`: appends the callback to the topic's list
(`_subscribers[topic].append(callback)`), leaving other topics unchanged. -/
def subscribe {π ε δ : Type} (bus : Bus π ε δ) (topic : String)
    (callback : Callback π ε δ) : Bus π ε δ :=
  fun t => if t = topic then bus t ++ [callback] else bus t

/-- `publish`: delivers the payload to the topic's subscriber list. -/
def publish {π ε δ : Type} (bus : Bus π ε δ) (topic : String) (payload : π) : List δ :=
  publishList topic payload (bus topic)

end messaging

namespace orchestrator

open quantum_integration

/-- Workflow settings from `shared/config.py` (`Config`): `max_iterations`
(default 3) bounds the Agent-3 rejection loop, `risk_threshold` (default
4.0) is the minimum risk score that activates deflection. -/
structure Config where
  mk ::
  max_iterations : Nat
  risk_threshold : ℚ
deriving DecidableEq

/-- The default configuration (`AEGIS_MAX_ITERATIONS=3`,
`AEGIS_RISK_THRESHOLD=4.0`). -/
def defaultConfig : Config := ⟨3, 4⟩

/-- The part of the `threat_assessment` record the workflow control reads
(`impact_probability`, `kinetic_energy_mt`, `estimated_damage` and the
timestamps only feed logs and presentation). -/
structure ThreatAssessment where
  mk ::
  risk_score : ℚ
  requires_deflection : Bool
deriving DecidableEq

/-- The part of the `safety_evaluation` record the workflow control reads.
`verdict` is `Option` so that a record without the field (the case
`safety.get('verdict', 'REJECT')` defends against) is representable. -/
structure SafetyEvaluation where
  mk ::
  verdict : Option String
  feedback : Option String
  error : Option String
deriving DecidableEq

/-- One `execution_log` entry (`add_log_entry`; the timestamp and details
dict are omitted). -/
structure LogEntry where
  mk ::
  agent : String
  action : String
deriving DecidableEq

/-- The shared `AegisState` of `shared/state_schema.py`, restricted to the
fields some modelled code path reads or writes.  `asteroid_data` feeds only
the LLM prompts and derived presentation values and is omitted. -/
structure AegisState where
  mk ::
  asteroid_id : Nat
  threat_assessment : Option ThreatAssessment
  simulation_candidates : Option (List Candidate)
  quantum_result : Option QuantumResult
  safety_evaluation : Option SafetyEvaluation
  iteration_count : Nat
  current_agent : Option String
  workflow_status : String
  execution_log : List LogEntry
deriving DecidableEq

/-- `create_initial_state`: fresh state with `iteration_count = 0` and
`workflow_status = "IN_PROGRESS"`, nothing assessed yet. -/
def create_initial_state (asteroid_id : Nat) : AegisState :=
  ⟨asteroid_id, none, none, none, none, 0, none, "IN_PROGRESS", []⟩

/-- `add_log_entry`: appends to the execution log. -/
def add_log_entry (st : AegisState) (agent action : String) : AegisState :=
  { st with execution_log := st.execution_log ++ [⟨agent, action⟩] }

/-- The LangGraph `OrchestratorState`: the shared state plus the `error`
slot the node functions write on caught exceptions. -/
structure OrchestratorState where
  mk ::
  aegis_state : AegisState
  error : Option String
deriving DecidableEq

/-- Outcome of the Agent-1 LLM interaction: either the risk score that
`_extract_risk_score` produces from the response, or an exception raised
anywhere in the stage's `try` block. -/
inductive Agent1Outcome
  | ok (risk_score : ℚ)
  | err (msg : String)
deriving DecidableEq

/-- Outcome of the Agent-2 planner interaction: either the raw candidate
list (from the planner result or `_generate_simulation_candidates`, whose
randomness is absorbed here), or an exception. -/
inductive Agent2Outcome
  | ok (raw_candidates : List Candidate)
  | err (msg : String)

/-- Outcome of the Agent-3 validator interaction: either the validation
result (`decision` plus `raw_response`), or an exception. -/
inductive Agent3Outcome
  | ok (decision : String) (raw_response : String)
  | err (msg : String)
deriving DecidableEq

/-- `agent_1_node`: on success stores the threat assessment with
`requires_deflection = risk_score >= get_config().risk_threshold` and logs;
on an exception records the error and defaults to a high-risk assessment
(`risk_score 5.0, requires_deflection True`). -/
def agent_1_node (cfg : Config) (out : Agent1Outcome) (st : OrchestratorState) :
    OrchestratorState :=
  match out with
  | .ok risk_score =>
    let aegis := { st.aegis_state with
      threat_assessment := some ⟨risk_score, decide (risk_score ≥ cfg.risk_threshold)⟩,
      current_agent := some "agent_1" }
    ⟨add_log_entry aegis "agent_1" "THREAT_ASSESSMENT_COMPLETE", st.error⟩
  | .err msg =>
    ⟨{ st.aegis_state with threat_assessment := some ⟨5, true⟩ }, some msg⟩

/-- The hard-coded constraints dict built in `agent_2_node`. -/
def agent2Constraints : Constraints := ⟨some 25, some 5, some 100, some 5000⟩

/-- `agent_2_node`: prepares the candidates and runs the selection engine;
on success stores candidates and quantum result and logs; any exception
(planner or engine) is caught, recorded in `error`, and leaves the shared
state untouched. -/
def agent_2_node (out : Agent2Outcome) (st : OrchestratorState) : OrchestratorState :=
  match out with
  | .err msg => ⟨st.aegis_state, some msg⟩
  | .ok raw_candidates =>
    let candidates := prepare_candidates_for_quantum raw_candidates agent2Constraints
    match run_quantum_optimization candidates (some agent2Constraints) with
    | .error msg => ⟨st.aegis_state, some msg⟩
    | .ok quantum_result =>
      let aegis := { st.aegis_state with
        simulation_candidates := some candidates,
        quantum_result := some quantum_result.result,
        current_agent := some "agent_2" }
      ⟨add_log_entry aegis "agent_2" "QUANTUM_OPTIMIZATION_COMPLETE", st.error⟩

/-- `agent_3_node`: on success stores the safety evaluation with
`verdict = 'APPROVE' if verdict == 'APPROVED' else 'REJECT'` and the raw
response as feedback on non-approval; on an exception records the error and
defaults the evaluation to verdict `APPROVE`. -/
def agent_3_node (out : Agent3Outcome) (st : OrchestratorState) : OrchestratorState :=
  match out with
  | .ok decision raw_response =>
    let aegis := { st.aegis_state with
      safety_evaluation := some
        ⟨some (if decision = "APPROVED" then "APPROVE" else "REJECT"),
          if decision = "APPROVED" then none else some raw_response, none⟩,
      current_agent := some "agent_3" }
    ⟨add_log_entry aegis "agent_3" ("SAFETY_" ++ decision), st.error⟩
  | .err msg =>
    ⟨{ st.aegis_state with safety_evaluation := some ⟨some "APPROVE", none, some msg⟩ },
      some msg⟩

/-- `final_decision_node`: marks the workflow `COMPLETED` and logs. -/
def final_decision_node (st : OrchestratorState) : OrchestratorState :=
  ⟨add_log_entry { st.aegis_state with workflow_status := "COMPLETED" }
    "orchestrator" "WORKFLOW_COMPLETED", st.error⟩

/-- `human_escalation_node`: marks the workflow `ESCALATED` and logs. -/
def human_escalation_node (st : OrchestratorState) : OrchestratorState :=
  ⟨add_log_entry { st.aegis_state with workflow_status := "ESCALATED" }
    "orchestrator" "ESCALATED_TO_HUMANS", st.error⟩

/-- `route_after_agent_1`: to Agent 2 exactly when
`threat.get('requires_deflection', False)`. -/
def route_after_agent_1 (st : AegisState) : String :=
  if (st.threat_assessment.map (·.requires_deflection)).getD false then "agent_2"
  else "end_no_action"

/-- `route_after_agent_3`: `APPROVE` goes to the final decision; otherwise a
retry (incrementing `iteration_count`) while `iteration_count <
max_iterations`, else escalation.  A missing evaluation or verdict field
defaults to `'REJECT'` (`safety.get('verdict', 'REJECT')`).  The router
mutates the state on the retry path, so it returns the routing string
together with the state. -/
def route_after_agent_3 (cfg : Config) (st : AegisState) : String × AegisState :=
  let verdict := (st.safety_evaluation.bind (·.verdict)).getD "REJECT"
  if verdict = "APPROVE" then ("final_decision", st)
  else if st.iteration_count < cfg.max_iterations then
    ("agent_2", { st with iteration_count := st.iteration_count + 1 })
  else ("human_escalation", st)

/-- Nodes of the compiled LangGraph workflow (`build_aegis_graph`), with the
implicit `END` as `terminal`. -/
inductive Node
  | agent_1
  | agent_2
  | agent_3
  | final_decision
  | human_escalation
  | terminal
deriving DecidableEq

/-- Everything outside the controller that a run consumes: the
configuration, the asteroid id, and the per-invocation outcomes of the three
opaque advisory-service interactions (indexed by how many times the stage
has run, so rejection-loop retries can behave differently). -/
structure Env where
  mk ::
  cfg : Config
  asteroid_id : Nat
  agent1 : Agent1Outcome
  agent2 : Nat → Agent2Outcome
  agent3 : Nat → Agent3Outcome

/-- A configuration of the running graph: current node, orchestrator state,
and how many times Agents 2 and 3 have executed. -/
structure RunState where
  mk ::
  node : Node
  ost : OrchestratorState
  a2_calls : Nat
  a3_calls : Nat

/-- The entry configuration of `run_aegis_workflow`: entry point `agent_1`
on a fresh `create_initial_state`. -/
def initialRunState (env : Env) : RunState :=
  ⟨.agent_1, ⟨create_initial_state env.asteroid_id, none⟩, 0, 0⟩

/-- One transition of the compiled graph: execute the current node's
function, then follow its (conditional) edge, exactly as wired in
`build_aegis_graph`.  `terminal` is absorbing. -/
def stepNode (env : Env) (rs : RunState) : RunState :=
  match rs.node with
  | .agent_1 =>
    let ost := agent_1_node env.cfg env.agent1 rs.ost
    let next := if route_after_agent_1 ost.aegis_state = "agent_2" then Node.agent_2
      else Node.terminal
    ⟨next, ost, rs.a2_calls, rs.a3_calls⟩
  | .agent_2 =>
    let ost := agent_2_node (env.agent2 rs.a2_calls) rs.ost
    ⟨.agent_3, ost, rs.a2_calls + 1, rs.a3_calls⟩
  | .agent_3 =>
    let ost := agent_3_node (env.agent3 rs.a3_calls) rs.ost
    let routed := route_after_agent_3 env.cfg ost.aegis_state
    let next := if routed.1 = "final_decision" then Node.final_decision
      else if routed.1 = "agent_2" then Node.agent_2
      else Node.human_escalation
    ⟨next, ⟨routed.2, ost.error⟩, rs.a2_calls, rs.a3_calls + 1⟩
  | .final_decision => ⟨.terminal, final_decision_node rs.ost, rs.a2_calls, rs.a3_calls⟩
  | .human_escalation => ⟨.terminal, human_escalation_node rs.ost, rs.a2_calls, rs.a3_calls⟩
  | .terminal => rs

/-- Fuel-bounded iteration of `stepNode`. -/
def runFuel (env : Env) : Nat → RunState → RunState
  | 0, rs => rs
  | n + 1, rs => if rs.node = .terminal then rs else runFuel env n (stepNode env rs)

/-- Fuel that always suffices: the longest path visits Agent 1 once, Agents
2 and 3 at most `max_iterations + 1` times each, and one closing node. -/
def totalFuel (env : Env) : Nat := 3 * env.cfg.max_iterations + 10

/-- `run_aegis_workflow`: the final configuration of the graph run. -/
def run_aegis_workflow (env : Env) : RunState :=
  runFuel env (totalFuel env) (initialRunState env)

/-- The configurations a run can pass through. -/
inductive Reachable (env : Env) : RunState → Prop
  | init : Reachable env (initialRunState env)
  | step {rs : RunState} : Reachable env rs → Reachable env (stepNode env rs)

/-- The safety verdict the router will read right after Agent 3 executes
from configuration `rs`. -/
def verdictAfterAgent3 (env : Env) (rs : RunState) : String :=
  (((agent_3_node (env.agent3 rs.a3_calls) rs.ost).aegis_state.safety_evaluation.bind
    (·.verdict)).getD "REJECT")

end orchestrator

namespace orchestrator

/-- A benign concrete environment: high risk score (9), a planner that
returns no raw candidates (the engine pads to 16), and an approving
validator. -/
def envW : Env :=
  ⟨defaultConfig, 7, .ok 9, fun _ => .ok [], fun _ => .ok "APPROVED" "all clear"⟩

/-- Concrete environment whose safety validator raises on every
invocation. -/
def envC2 : Env :=
  ⟨defaultConfig, 1, .ok 9, fun _ => .ok [], fun _ => .err "validator crashed"⟩

/-- Concrete environment whose validator rejects exactly the first three
times and then approves. -/
def envC4 : Env :=
  ⟨defaultConfig, 1, .ok 9, fun _ => .ok [],
    fun n => if n < 3 then .ok "REJECTED" "Reduce the speed parameter"
      else .ok "APPROVED" "ok"⟩

/-- Concrete environment whose threat assessment scores below the risk
threshold. -/
def envC5 : Env :=
  ⟨defaultConfig, 1, .ok 0, fun _ => .ok [], fun _ => .ok "APPROVED" "unused"⟩

end orchestrator

namespace quantum_integration

/-- A 16-entry, all-valid candidate set whose unique best score (9) sits at
index 2; every other entry scores 1. -/
def csC1 : List Candidate :=
  (List.range 16).map fun i => candOf i (if i = 2 then 9 else 1) true

/-- A possible (though astronomically unlikely) 2048-shot histogram: every
shot lands on state 5. -/
def countsBad : Nat → Nat := fun i => if i = 5 then 2048 else 0

/-- The overwhelmingly likely 2048-shot histogram: every shot lands on the
marked state 2. -/
def countsGood : Nat → Nat := fun i => if i = 2 then 2048 else 0

/-- Sixteen scored, valid candidates all carrying the duplicate id 0. -/
def csDup : List Candidate := List.replicate 16 (candOf 0 1 true)

end quantum_integration

namespace quantum_integration

/-- `maxStep` yields `none` only from an empty accumulator and an invalid
entry. -/
theorem maxStep_eq_none_iff (acc : Option (Nat × ℚ)) (p : Nat × Candidate) :
    maxStep acc p = none ↔ acc = none ∧ p.2.validity.getD true = false := by
  by_cases hv : p.2.validity.getD true
  · cases acc with
    | none => simp [maxStep, hv]
    | some b =>
      cases b with
      | mk bi bs => by_cases hs : p.2.score.getD 0 > bs <;> simp [maxStep, hv, hs]
  · simp only [Bool.not_eq_true] at hv
    simp [maxStep, hv]

/-- Whatever `maxStep` returns is either the old accumulator or the current
entry (which is then valid). -/
theorem maxStep_eq_some (acc : Option (Nat × ℚ)) (p : Nat × Candidate)
    (bi : Nat) (bs : ℚ) (h : maxStep acc p = some (bi, bs)) :
    acc = some (bi, bs) ∨
      (p.2.validity.getD true = true ∧ bi = p.1 ∧ bs = p.2.score.getD 0) := by
  by_cases hv : p.2.validity.getD true
  · cases acc with
    | none =>
      simp only [maxStep, hv, if_true] at h
      injection h with h'
      exact Or.inr ⟨hv, by cases h'; exact ⟨rfl, rfl⟩⟩
    | some b =>
      cases b with
      | mk ai as' =>
        by_cases hs : p.2.score.getD 0 > as'
        · simp only [maxStep, hv, if_true, hs, if_pos] at h
          injection h with h'
          exact Or.inr ⟨hv, by cases h'; exact ⟨rfl, rfl⟩⟩
        · simp only [maxStep, hv, if_true, hs, if_neg, if_false] at h
          exact Or.inl h
  · simp only [Bool.not_eq_true] at hv
    simp only [maxStep, hv, Bool.false_eq_true, if_false] at h
    exact Or.inl h

/-- `maxStep` never decreases the accumulated score, and a valid entry's
score never exceeds the new accumulated score. -/
theorem maxStep_bound (acc : Option (Nat × ℚ)) (p : Nat × Candidate) :
    (∀ ai as', acc = some (ai, as') →
      ∃ bi bs, maxStep acc p = some (bi, bs) ∧ as' ≤ bs) ∧
    (p.2.validity.getD true = true →
      ∃ bi bs, maxStep acc p = some (bi, bs) ∧ p.2.score.getD 0 ≤ bs) := by
  by_cases hv : p.2.validity.getD true
  · cases acc with
    | none =>
      refine ⟨?_, ?_⟩
      · intro ai as' h; cases h
      · intro _
        exact ⟨p.1, p.2.score.getD 0, by simp [maxStep, hv], le_refl _⟩
    | some b =>
      cases b with
      | mk ai as' =>
        by_cases hs : p.2.score.getD 0 > as'
        · refine ⟨?_, ?_⟩
          · intro ai' as'' h
            injection h with h'; cases h'
            exact ⟨p.1, p.2.score.getD 0, by simp [maxStep, hv, hs], le_of_lt hs⟩
          · intro _
            exact ⟨p.1, p.2.score.getD 0, by simp [maxStep, hv, hs], le_refl _⟩
        · refine ⟨?_, ?_⟩
          · intro ai' as'' h
            injection h with h'; cases h'
            exact ⟨ai, as', by simp [maxStep, hv, hs], le_refl _⟩
          · intro _
            exact ⟨ai, as', by simp [maxStep, hv, hs], le_of_not_lt hs⟩
  · simp only [Bool.not_eq_true] at hv
    refine ⟨?_, ?_⟩
    · intro ai as' h
      exact ⟨ai, as', by simp [maxStep, hv, h], le_refl _⟩
    · intro hcontra
      rw [hcontra] at hv; cases hv

/-- The fold comes back empty exactly when it started empty and saw no valid
entry. -/
theorem bestValidAux_eq_none_iff (l : List (Nat × Candidate)) (acc : Option (Nat × ℚ)) :
    bestValidAux acc l = none ↔ acc = none ∧ ∀ p ∈ l, p.2.validity.getD true = false := by
  induction l generalizing acc with
  | nil => simp [bestValidAux]
  | cons p rest ih =>
    simp only [bestValidAux, List.foldl_cons] at *
    rw [ih (maxStep acc p), maxStep_eq_none_iff]
    constructor
    · rintro ⟨⟨h1, h2⟩, h3⟩
      refine ⟨h1, ?_⟩
      intro q hq
      rcases List.mem_cons.mp hq with rfl | hq'
      · exact h2
      · exact h3 _ hq'
    · rintro ⟨h1, h2⟩
      exact ⟨⟨h1, h2 _ (List.mem_cons_self _ _)⟩,
        fun q hq => h2 _ (List.mem_cons_of_mem _ hq)⟩

/-- The winning pair comes from the accumulator or from a valid list entry,
whose score it carries. -/
theorem bestValidAux_mem (l : List (Nat × Candidate)) (acc : Option (Nat × ℚ))
    (bi : Nat) (bs : ℚ) (h : bestValidAux acc l = some (bi, bs)) :
    acc = some (bi, bs) ∨
      ∃ c, (bi, c) ∈ l ∧ c.validity.getD true = true ∧ bs = c.score.getD 0 := by
  induction l generalizing acc with
  | nil => exact Or.inl h
  | cons p rest ih =>
    simp only [bestValidAux, List.foldl_cons] at h
    rcases ih _ h with h' | ⟨c, hc, hcv, hcs⟩
    · rcases maxStep_eq_some _ _ _ _ h' with h'' | ⟨hv, hbi, hbs⟩
      · exact Or.inl h''
      · refine Or.inr ⟨p.2, ?_, hv, hbs⟩
        have hp : (bi, p.2) = p := by cases p; simp [hbi]
        rw [hp]
        exact List.mem_cons_self _ _
    · exact Or.inr ⟨c, List.mem_cons_of_mem _ hc, hcv, hcs⟩

/-- The winning score dominates the initial accumulator and every valid list
entry. -/
theorem bestValidAux_le (l : List (Nat × Candidate)) (acc : Option (Nat × ℚ))
    (bi : Nat) (bs : ℚ) (h : bestValidAux acc l = some (bi, bs)) :
    (∀ ai as', acc = some (ai, as') → as' ≤ bs) ∧
      ∀ p ∈ l, p.2.validity.getD true = true → p.2.score.getD 0 ≤ bs := by
  induction l generalizing acc with
  | nil =>
    refine ⟨?_, by simp⟩
    intro ai as' ha
    rw [ha] at h; injection h with h'; cases h'; exact le_refl _
  | cons p rest ih =>
    simp only [bestValidAux, List.foldl_cons] at h
    obtain ⟨ha, hl⟩ := ih _ h
    constructor
    · intro ai as' hacc
      obtain ⟨bi', bs', hstep, hle⟩ := (maxStep_bound acc p).1 ai as' hacc
      exact le_trans hle (ha _ _ hstep)
    · intro q hq hqv
      rcases List.mem_cons.mp hq with rfl | hq'
      · obtain ⟨bi', bs', hstep, hle⟩ := (maxStep_bound acc q).2 hqv
        exact le_trans hle (ha _ _ hstep)
      · exact hl _ hq' hqv

end quantum_integration

open quantum_integration safety_tools messaging orchestrator

/-- C6: for every 16-entry candidate set, the deterministic selection step
returns index 0 without error when no candidate is valid, and otherwise the
index of a highest-scoring candidate among those with `validity == true`
(in particular the winning candidate is valid). -/
theorem classical_fallback_selects_best_valid (candidates : List Candidate)
    (h16 : candidates.length = 16) :
    ((∀ c ∈ candidates, c.validity.getD true = false) →
      (_run_classical_fallback candidates).optimal_index = 0)
    ∧ ((∃ c ∈ candidates, c.validity.getD true = true) →
      ∃ w, candidates[(_run_classical_fallback candidates).optimal_index]? = some w
        ∧ w.validity.getD true = true
        ∧ (_run_classical_fallback candidates).optimal_index < 16
        ∧ ∀ (j : Nat) (d : Candidate), candidates[j]? = some d → d.validity.getD true = true →
            d.score.getD 0 ≤ w.score.getD 0) := by
  constructor
  · intro hall
    have hnone : bestValidAux none candidates.enum = none := by
      rw [bestValidAux_eq_none_iff]
      refine ⟨rfl, ?_⟩
      rintro ⟨i, c⟩ hp
      exact hall c (List.getElem?_mem (List.mem_enum_iff_getElem?.mp hp))
    unfold _run_classical_fallback
    rw [hnone]
  · rintro ⟨c, hc, hcv⟩
    cases hbv : bestValidAux none candidates.enum with
    | none =>
      obtain ⟨-, hall⟩ := (bestValidAux_eq_none_iff _ _).mp hbv
      obtain ⟨i, hi, hv⟩ := List.mem_iff_getElem.mp hc
      have hget : candidates[i]? = some c := by
        rw [List.getElem?_eq_getElem hi, hv]
      have := hall (i, c) (List.mem_enum_iff_getElem?.mpr hget)
      simp only [hcv] at this
      cases this
    | some b =>
      obtain ⟨bi, bs⟩ := b
      have hfall : (_run_classical_fallback candidates).optimal_index = bi := by
        unfold _run_classical_fallback
        rw [hbv]
      rcases bestValidAux_mem _ _ _ _ hbv with h' | ⟨w, hw, hwv, hws⟩
      · cases h'
      · have hle := (bestValidAux_le _ _ _ _ hbv).2
        have hidx : candidates[bi]? = some w := List.mem_enum_iff_getElem?.mp hw
        refine ⟨w, by rw [hfall]; exact hidx, hwv, ?_, ?_⟩
        · rw [hfall]
          have := (List.getElem?_eq_some.mp hidx).1
          omega
        · intro j d hj hdv
          have hmem : (j, d) ∈ candidates.enum := List.mem_enum_iff_getElem?.mpr hj
          have := hle (j, d) hmem hdv
          rw [← hws]
          exact this

/-- C6 witness: the theorem applied to the concrete all-valid set `csC1`. -/
theorem classical_fallback_selects_best_valid_witness :
    csC1.length = 16
    ∧ (((∀ c ∈ csC1, c.validity.getD true = false) →
        (_run_classical_fallback csC1).optimal_index = 0)
      ∧ ((∃ c ∈ csC1, c.validity.getD true = true) →
        ∃ w, csC1[(_run_classical_fallback csC1).optimal_index]? = some w
          ∧ w.validity.getD true = true
          ∧ (_run_classical_fallback csC1).optimal_index < 16
          ∧ ∀ (j : Nat) (d : Candidate), csC1[j]? = some d → d.validity.getD true = true →
              d.score.getD 0 ≤ w.score.getD 0)) :=
  ⟨by decide, classical_fallback_selects_best_valid csC1 (by decide)⟩

/-- C1 counterexample: on the 16-entry all-valid set `csC1` (best index 2)
there is a possible 2048-shot measurement outcome (`countsBad`, all shots on
state 5) for which the amplification mode returns winning index 5 while the
deterministic mode returns 2 — the randomness of the measurement can change
which index wins, not just the reported confidence. -/
theorem amplification_can_disagree_with_deterministic :
    csC1.length = 16
    ∧ (∃ c ∈ csC1, c.validity.getD true = true)
    ∧ ((List.range 16).map countsBad).sum = 2048
    ∧ _run_real_quantum csC1 countsBad = .ok (2, ⟨5, 1, 4, 3, mkRat 16 3, false⟩)
    ∧ (_run_classical_fallback csC1).optimal_index = 2
    ∧ (5 : Nat) ≠ 2 := by decide

/-- C1 (amended): both modes compute the same oracle target — the
deterministic winner — and amplification mode's winning index is the
most-measured state, so the two modes agree whenever the marked target is
the most-measured outcome (the overwhelmingly likely case, but not every
case). -/
theorem amplification_agrees_when_marked_index_most_measured
    (candidates : List Candidate) (counts : Nat → Nat) (tgt : Nat) (res : QuantumResult)
    (h : _run_real_quantum candidates counts = .ok (tgt, res)) :
    tgt = (_run_classical_fallback candidates).optimal_index
    ∧ res.optimal_index = measuredIndex counts
    ∧ (measuredIndex counts = tgt →
        res.optimal_index = (_run_classical_fallback candidates).optimal_index) := by
  unfold _run_real_quantum at h
  cases hb : best_valid_index candidates with
  | none =>
    rw [hb] at h
    cases h
  | some b =>
    rw [hb] at h
    injection h with h'
    have h1 : tgt = b := by
      have := congrArg Prod.fst h'
      simpa using this.symm
    have h2 : res = ⟨measuredIndex counts, mkRat (counts (measuredIndex counts)) 2048, 4, 3,
        mkRat 16 3, false⟩ := by
      have := congrArg Prod.snd h'
      simpa using this.symm
    have hfall : (_run_classical_fallback candidates).optimal_index = b := by
      unfold best_valid_index at hb
      cases hbv : bestValidAux none candidates.enum with
      | none => rw [hbv] at hb; cases hb
      | some p =>
        rw [hbv] at hb
        obtain ⟨pi, ps⟩ := p
        unfold _run_classical_fallback
        rw [hbv]
        injection hb with hb'
    refine ⟨by rw [h1, hfall], by rw [h2], ?_⟩
    intro hm
    rw [h2]
    show measuredIndex counts = (_run_classical_fallback candidates).optimal_index
    rw [hfall, ← h1]
    exact hm

/-- C1 witness: with every shot on the marked state 2, both modes return
index 2 on `csC1`. -/
theorem amplification_agreement_witness :
    _run_real_quantum csC1 countsGood = .ok (2, ⟨2, 1, 4, 3, mkRat 16 3, false⟩)
    ∧ ((2 : Nat) = (_run_classical_fallback csC1).optimal_index
      ∧ (QuantumResult.mk 2 1 4 3 (mkRat 16 3) false).optimal_index = measuredIndex countsGood
      ∧ (measuredIndex countsGood = 2 →
          (QuantumResult.mk 2 1 4 3 (mkRat 16 3) false).optimal_index =
            (_run_classical_fallback csC1).optimal_index)) :=
  ⟨by decide,
    amplification_agrees_when_marked_index_most_measured csC1 countsGood 2
      ⟨2, 1, 4, 3, mkRat 16 3, false⟩ (by decide)⟩

/-- C8 counterexample: a 16-entry candidate set in which every entry carries
the duplicate id 0 passes `select()` without any error — the engine checks
only the length, not id uniqueness. -/
theorem select_accepts_duplicate_ids :
    csDup.length = 16
    ∧ ¬ (csDup.map Candidate.id).Nodup
    ∧ run_quantum_optimization csDup none =
        .ok ⟨⟨0, 1, 0, 16, 1, true⟩, some (candOf 0 1 true)⟩ := by decide

/-- C8 (amended): `run_quantum_optimization` raises its input-contract error
exactly for candidate lists whose length differs from 16; a 16-entry list is
processed (and never padded) whatever its ids. -/
theorem select_raises_exactly_on_bad_length (candidates : List Candidate)
    (oracle_constraints : Option Constraints) :
    (∃ e, run_quantum_optimization candidates oracle_constraints = .error e) ↔
      candidates.length ≠ 16 := by
  unfold run_quantum_optimization
  by_cases h : candidates.length = 16 <;> simp [h]

/-- C7 counterexample: at the exact thresholds (deflection exactly 10000 km,
confidence exactly 0.70) the code APPROVEs, although neither metric strictly
exceeds its minimum — the code's checks are non-strict where the claim reads
them as strict. -/
theorem approve_at_exact_thresholds :
    (evaluate_safety_score 50 10000 (mkRat 7 10)).recommendation = "APPROVE"
    ∧ ¬ ((50 : ℚ) < 100 ∧ (10000 : ℚ) > 10000 ∧ mkRat 7 10 > mkRat 7 10) := by decide

/-- C7 (amended): the verdict is APPROVE exactly when fragmentation risk is
below 100, deflection distance is at least 10,000 km and confidence is at
least 0.70; otherwise the verdict is REJECT and `checks_failed` names
exactly the failed check(s). -/
theorem evaluate_safety_score_threshold_spec (f d c : ℚ) :
    ((evaluate_safety_score f d c).recommendation = "APPROVE" ↔
      (f < 100 ∧ d ≥ 10000 ∧ c ≥ mkRat 7 10))
    ∧ ((evaluate_safety_score f d c).recommendation = "REJECT" ↔
      ¬ (f < 100 ∧ d ≥ 10000 ∧ c ≥ mkRat 7 10))
    ∧ ("FRAGMENTATION_CRITICAL" ∈ (evaluate_safety_score f d c).checks_failed ↔ ¬ f < 100)
    ∧ ("DEFLECTION_INSUFFICIENT" ∈ (evaluate_safety_score f d c).checks_failed ↔ ¬ d ≥ 10000)
    ∧ ("CONFIDENCE_LOW" ∈ (evaluate_safety_score f d c).checks_failed ↔ ¬ c ≥ mkRat 7 10)
    ∧ ((evaluate_safety_score f d c).checks_failed = [] ↔
      (f < 100 ∧ d ≥ 10000 ∧ c ≥ mkRat 7 10)) := by
  unfold evaluate_safety_score
  by_cases h1 : f < 100 <;> by_cases h2 : d ≥ 10000 <;> by_cases h3 : c ≥ mkRat 7 10 <;>
    simp [h1, h2, h3]

namespace messaging

/-- Subscribing appends the callback at the end of its topic's list. -/
theorem subscribe_apply_self {π ε δ : Type} (bus : Bus π ε δ) (topic : String)
    (cb : Callback π ε δ) : (subscribe bus topic cb) topic = bus topic ++ [cb] := by
  simp [subscribe]

/-- A sequence of subscriptions to one topic appends the callbacks in
subscription order. -/
theorem foldl_subscribe_apply {π ε δ : Type} (bus : Bus π ε δ) (topic : String)
    (cbs : List (Callback π ε δ)) :
    (cbs.foldl (fun b c => subscribe b topic c) bus) topic = bus topic ++ cbs := by
  induction cbs generalizing bus with
  | nil => simp
  | cons cb rest ih =>
    rw [List.foldl_cons, ih, subscribe_apply_self, List.append_assoc, List.singleton_append]

/-- Delivery distributes over list concatenation (so delivery happens in
list, i.e. subscription, order). -/
theorem publishList_append {π ε δ : Type} (topic : String) (payload : π)
    (l₁ l₂ : List (Callback π ε δ)) :
    publishList topic payload (l₁ ++ l₂) =
      publishList topic payload l₁ ++ publishList topic payload l₂ := by
  induction l₁ with
  | nil => rfl
  | cons cb rest ih =>
    rw [List.cons_append]
    cases h : cb topic payload with
    | ok d => simp only [publishList, h, ih, List.cons_append]
    | error e => simp only [publishList, h, ih]

/-- Delivery is the in-order collection of the successful callback results:
every callback in the snapshot is consulted exactly once, in order. -/
theorem publishList_eq_filterMap {π ε δ : Type} (topic : String) (payload : π)
    (l : List (Callback π ε δ)) :
    publishList topic payload l = l.filterMap (fun c => (c topic payload).toOption) := by
  induction l with
  | nil => rfl
  | cons cb rest ih =>
    cases h : cb topic payload with
    | ok d => simp [publishList, h, ih, List.filterMap_cons, Except.toOption]
    | error e => simp [publishList, h, ih, List.filterMap_cons, Except.toOption]

end messaging

/-- C9: subscriptions to a topic accumulate in FIFO order; `publish`
delivers to the snapshot synchronously in that order (it distributes over
concatenation and equals the in-order `filterMap` of callback results); and
a raising callback is simply skipped — it neither reaches the publisher (the
delivery function is total) nor prevents the remaining callbacks from
running. -/
theorem publish_fifo_and_isolates_subscriber_failures {π ε δ : Type}
    (bus : messaging.Bus π ε δ) (topic : String) (payload : π)
    (cbs l₁ l₂ : List (messaging.Callback π ε δ)) (cb : messaging.Callback π ε δ)
    (e : ε) (herr : cb topic payload = .error e) :
    (cbs.foldl (fun b c => messaging.subscribe b topic c) bus) topic = bus topic ++ cbs
    ∧ messaging.publishList topic payload (l₁ ++ l₂) =
        messaging.publishList topic payload l₁ ++ messaging.publishList topic payload l₂
    ∧ messaging.publishList topic payload (l₁ ++ cb :: l₂) =
        messaging.publishList topic payload (l₁ ++ l₂)
    ∧ messaging.publish bus topic payload =
        (bus topic).filterMap (fun c => (c topic payload).toOption) := by
  refine ⟨messaging.foldl_subscribe_apply bus topic cbs,
    messaging.publishList_append topic payload l₁ l₂, ?_, ?_⟩
  · rw [messaging.publishList_append, messaging.publishList_append]
    have hskip : messaging.publishList topic payload (cb :: l₂) =
        messaging.publishList topic payload l₂ := by
      simp only [messaging.publishList, herr]
    rw [hskip]
  · exact messaging.publishList_eq_filterMap topic payload (bus topic)

/-- C9 witness: the theorem applied to a concrete empty bus, a concrete
always-raising callback and empty callback lists. -/
theorem publish_fifo_witness :
    ((fun _ _ => Except.error 0 : messaging.Callback Nat Nat Nat) "t" 0 = .error 0)
    ∧ (([] : List (messaging.Callback Nat Nat Nat)).foldl
          (fun b c => messaging.subscribe b "t" c) (fun _ => []) "t" = (fun _ => []) "t" ++ []
      ∧ messaging.publishList "t" 0 ([] ++ [] : List (messaging.Callback Nat Nat Nat)) =
          messaging.publishList "t" 0 ([] : List (messaging.Callback Nat Nat Nat)) ++
            messaging.publishList "t" 0 ([] : List (messaging.Callback Nat Nat Nat))
      ∧ messaging.publishList "t" 0
            ([] ++ (fun _ _ => Except.error 0 : messaging.Callback Nat Nat Nat) :: []) =
          messaging.publishList "t" 0 ([] ++ [] : List (messaging.Callback Nat Nat Nat))
      ∧ messaging.publish (fun _ => [] : messaging.Bus Nat Nat Nat) "t" 0 =
          ((fun _ => [] : messaging.Bus Nat Nat Nat) "t").filterMap
            (fun c => (c "t" 0).toOption)) :=
  ⟨rfl, publish_fifo_and_isolates_subscriber_failures (fun _ => []) "t" 0 [] [] []
    (fun _ _ => Except.error 0) 0 rfl⟩

namespace orchestrator

/-- Agent 1 never touches the iteration counter. -/
@[simp] theorem agent_1_node_iteration_count (cfg : Config) (out : Agent1Outcome)
    (st : OrchestratorState) :
    (agent_1_node cfg out st).aegis_state.iteration_count =
      st.aegis_state.iteration_count := by
  cases out <;> simp [agent_1_node, add_log_entry]

/-- Agent 1 never touches the workflow status. -/
@[simp] theorem agent_1_node_workflow_status (cfg : Config) (out : Agent1Outcome)
    (st : OrchestratorState) :
    (agent_1_node cfg out st).aegis_state.workflow_status =
      st.aegis_state.workflow_status := by
  cases out <;> simp [agent_1_node, add_log_entry]

/-- Agent 1 never touches the candidate list. -/
@[simp] theorem agent_1_node_simulation_candidates (cfg : Config) (out : Agent1Outcome)
    (st : OrchestratorState) :
    (agent_1_node cfg out st).aegis_state.simulation_candidates =
      st.aegis_state.simulation_candidates := by
  cases out <;> simp [agent_1_node, add_log_entry]

/-- Agent 1 never touches the safety evaluation. -/
@[simp] theorem agent_1_node_safety_evaluation (cfg : Config) (out : Agent1Outcome)
    (st : OrchestratorState) :
    (agent_1_node cfg out st).aegis_state.safety_evaluation =
      st.aegis_state.safety_evaluation := by
  cases out <;> simp [agent_1_node, add_log_entry]

/-- Agent 2 never touches the iteration counter. -/
@[simp] theorem agent_2_node_iteration_count (out : Agent2Outcome) (st : OrchestratorState) :
    (agent_2_node out st).aegis_state.iteration_count =
      st.aegis_state.iteration_count := by
  cases out with
  | err m => rfl
  | ok raw =>
    unfold agent_2_node
    cases h : run_quantum_optimization (prepare_candidates_for_quantum raw agent2Constraints)
      (some agent2Constraints) <;> simp [h, add_log_entry]

/-- Agent 2 never touches the workflow status. -/
@[simp] theorem agent_2_node_workflow_status (out : Agent2Outcome) (st : OrchestratorState) :
    (agent_2_node out st).aegis_state.workflow_status =
      st.aegis_state.workflow_status := by
  cases out with
  | err m => rfl
  | ok raw =>
    unfold agent_2_node
    cases h : run_quantum_optimization (prepare_candidates_for_quantum raw agent2Constraints)
      (some agent2Constraints) <;> simp [h, add_log_entry]

/-- Agent 2 never touches the safety evaluation. -/
@[simp] theorem agent_2_node_safety_evaluation (out : Agent2Outcome) (st : OrchestratorState) :
    (agent_2_node out st).aegis_state.safety_evaluation =
      st.aegis_state.safety_evaluation := by
  cases out with
  | err m => rfl
  | ok raw =>
    unfold agent_2_node
    cases h : run_quantum_optimization (prepare_candidates_for_quantum raw agent2Constraints)
      (some agent2Constraints) <;> simp [h, add_log_entry]

/-- Agent 2 never touches the threat assessment. -/
@[simp] theorem agent_2_node_threat_assessment (out : Agent2Outcome) (st : OrchestratorState) :
    (agent_2_node out st).aegis_state.threat_assessment =
      st.aegis_state.threat_assessment := by
  cases out with
  | err m => rfl
  | ok raw =>
    unfold agent_2_node
    cases h : run_quantum_optimization (prepare_candidates_for_quantum raw agent2Constraints)
      (some agent2Constraints) <;> simp [h, add_log_entry]

/-- Agent 3 never touches the iteration counter (only the router does). -/
@[simp] theorem agent_3_node_iteration_count (out : Agent3Outcome) (st : OrchestratorState) :
    (agent_3_node out st).aegis_state.iteration_count =
      st.aegis_state.iteration_count := by
  cases out <;> simp [agent_3_node, add_log_entry]

/-- Agent 3 never touches the workflow status. -/
@[simp] theorem agent_3_node_workflow_status (out : Agent3Outcome) (st : OrchestratorState) :
    (agent_3_node out st).aegis_state.workflow_status =
      st.aegis_state.workflow_status := by
  cases out <;> simp [agent_3_node, add_log_entry]

/-- Agent 3 never touches the candidate list. -/
@[simp] theorem agent_3_node_simulation_candidates (out : Agent3Outcome)
    (st : OrchestratorState) :
    (agent_3_node out st).aegis_state.simulation_candidates =
      st.aegis_state.simulation_candidates := by
  cases out <;> simp [agent_3_node, add_log_entry]

/-- The closing nodes never touch the iteration counter. -/
@[simp] theorem final_decision_node_iteration_count (st : OrchestratorState) :
    (final_decision_node st).aegis_state.iteration_count =
      st.aegis_state.iteration_count := by
  simp [final_decision_node, add_log_entry]

/-- The escalation node never touches the iteration counter. -/
@[simp] theorem human_escalation_node_iteration_count (st : OrchestratorState) :
    (human_escalation_node st).aegis_state.iteration_count =
      st.aegis_state.iteration_count := by
  simp [human_escalation_node, add_log_entry]

end orchestrator

/-- C10: the router after Safety Validation transitions to FinalDecision
exactly when the stored verdict field is literally "APPROVE"; a missing
evaluation record, a missing verdict field or any unrecognized string falls
into the REJECT branch, which can only loop back to Strategy Generation or
escalate. -/
theorem route_to_final_decision_iff_explicit_approve (cfg : Config) (st : AegisState) :
    ((route_after_agent_3 cfg st).1 = "final_decision" ↔
      st.safety_evaluation.bind (·.verdict) = some "APPROVE")
    ∧ ((route_after_agent_3 cfg st).1 = "final_decision"
      ∨ (route_after_agent_3 cfg st).1 = "agent_2"
      ∨ (route_after_agent_3 cfg st).1 = "human_escalation") := by
  unfold route_after_agent_3
  cases hb : st.safety_evaluation.bind (·.verdict) with
  | none =>
    by_cases hi : st.iteration_count < cfg.max_iterations <;> simp [hb, hi]
  | some v =>
    by_cases hv : v = "APPROVE"
    · simp [hb, hv]
    · by_cases hi : st.iteration_count < cfg.max_iterations <;> simp [hb, hv, hi]

/-- C2 (amended): when the Safety validator raises, `agent_3_node` records
the error but defaults the evaluation to verdict APPROVE; the router then
sends the run to FinalDecision, which marks it COMPLETED while keeping the
recorded error — the run continues as if the selection had been approved,
and no path sets an ERROR status. -/
theorem validator_error_approves_and_completes (cfg : Config) (st : OrchestratorState)
    (msg : String) :
    (agent_3_node (.err msg) st).error = some msg
    ∧ (agent_3_node (.err msg) st).aegis_state.safety_evaluation =
        some ⟨some "APPROVE", none, some msg⟩
    ∧ (route_after_agent_3 cfg (agent_3_node (.err msg) st).aegis_state).1 = "final_decision"
    ∧ (final_decision_node
        ⟨(route_after_agent_3 cfg (agent_3_node (.err msg) st).aegis_state).2,
          (agent_3_node (.err msg) st).error⟩).aegis_state.workflow_status = "COMPLETED"
    ∧ (final_decision_node
        ⟨(route_after_agent_3 cfg (agent_3_node (.err msg) st).aegis_state).2,
          (agent_3_node (.err msg) st).error⟩).error = some msg := by
  refine ⟨rfl, rfl, ?_, ?_, rfl⟩ <;>
    simp [agent_3_node, route_after_agent_3, final_decision_node, add_log_entry]

/-- C2 counterexample: a complete run whose safety validator raises on its
only invocation terminates with status COMPLETED — not ERROR — carrying the
recorded error while treating the selection as approved. -/
theorem run_with_failing_validator_completes :
    envC2.agent3 0 = .err "validator crashed"
    ∧ (run_aegis_workflow envC2).node = .terminal
    ∧ (run_aegis_workflow envC2).ost.aegis_state.workflow_status = "COMPLETED"
    ∧ (run_aegis_workflow envC2).ost.aegis_state.workflow_status ≠ "ERROR"
    ∧ (run_aegis_workflow envC2).ost.error = some "validator crashed" := by decide

/-- C5 (amended): whenever the Threat Assessment score falls below the risk
threshold (`requiresAction == false`), the run reaches End immediately:
Strategy Generation is never invoked (zero Agent-2 calls) and no candidates
are generated — but the terminal status remains IN_PROGRESS, because the
no-action exit never sets COMPLETED. -/
theorem no_action_run_skips_strategy_generation (aid : Nat) (risk : ℚ)
    (a2 : Nat → Agent2Outcome) (a3 : Nat → Agent3Outcome)
    (hrisk : risk < defaultConfig.risk_threshold) :
    (run_aegis_workflow ⟨defaultConfig, aid, .ok risk, a2, a3⟩).node = .terminal
    ∧ (run_aegis_workflow
        ⟨defaultConfig, aid, .ok risk, a2, a3⟩).ost.aegis_state.threat_assessment =
        some ⟨risk, false⟩
    ∧ (run_aegis_workflow
        ⟨defaultConfig, aid, .ok risk, a2, a3⟩).ost.aegis_state.simulation_candidates = none
    ∧ (run_aegis_workflow ⟨defaultConfig, aid, .ok risk, a2, a3⟩).a2_calls = 0
    ∧ (run_aegis_workflow
        ⟨defaultConfig, aid, .ok risk, a2, a3⟩).ost.aegis_state.workflow_status =
        "IN_PROGRESS" := by
  have hreq : decide (risk ≥ defaultConfig.risk_threshold) = false :=
    decide_eq_false (not_le.mpr hrisk)
  have hstep : stepNode ⟨defaultConfig, aid, .ok risk, a2, a3⟩
      (initialRunState ⟨defaultConfig, aid, .ok risk, a2, a3⟩) =
      ⟨.terminal,
        ⟨⟨aid, some ⟨risk, false⟩, none, none, none, 0, some "agent_1", "IN_PROGRESS",
          [⟨"agent_1", "THREAT_ASSESSMENT_COMPLETE"⟩]⟩, none⟩, 0, 0⟩ := by
    simp [stepNode, initialRunState, create_initial_state, agent_1_node, add_log_entry,
      route_after_agent_1, hreq]
  have hrun : run_aegis_workflow ⟨defaultConfig, aid, .ok risk, a2, a3⟩ =
      ⟨.terminal,
        ⟨⟨aid, some ⟨risk, false⟩, none, none, none, 0, some "agent_1", "IN_PROGRESS",
          [⟨"agent_1", "THREAT_ASSESSMENT_COMPLETE"⟩]⟩, none⟩, 0, 0⟩ := by
    have hfuel : totalFuel ⟨defaultConfig, aid, .ok risk, a2, a3⟩ = 19 := rfl
    have hin : (initialRunState ⟨defaultConfig, aid, .ok risk, a2, a3⟩).node = .agent_1 := rfl
    unfold run_aegis_workflow
    rw [hfuel]
    simp [runFuel, hstep, hin]
  rw [hrun]
  exact ⟨rfl, rfl, rfl, rfl, rfl⟩

/-- C5 witness: the theorem applied to a concrete low-risk environment. -/
theorem no_action_run_witness :
    ((0 : ℚ) < defaultConfig.risk_threshold)
    ∧ ((run_aegis_workflow ⟨defaultConfig, 1, .ok 0, envC5.agent2, envC5.agent3⟩).node =
        .terminal
      ∧ (run_aegis_workflow
          ⟨defaultConfig, 1, .ok 0, envC5.agent2, envC5.agent3⟩).ost.aegis_state.threat_assessment
          = some ⟨0, false⟩
      ∧ (run_aegis_workflow
          ⟨defaultConfig, 1, .ok 0, envC5.agent2,
            envC5.agent3⟩).ost.aegis_state.simulation_candidates = none
      ∧ (run_aegis_workflow ⟨defaultConfig, 1, .ok 0, envC5.agent2, envC5.agent3⟩).a2_calls = 0
      ∧ (run_aegis_workflow
          ⟨defaultConfig, 1, .ok 0, envC5.agent2, envC5.agent3⟩).ost.aegis_state.workflow_status
          = "IN_PROGRESS") :=
  ⟨by decide, no_action_run_skips_strategy_generation 1 0 envC5.agent2 envC5.agent3 (by decide)⟩

/-- C5 counterexample: a concrete no-action run terminates with
`workflow_status` still IN_PROGRESS, not COMPLETED as the claim states. -/
theorem no_action_run_not_completed :
    (run_aegis_workflow envC5).ost.aegis_state.threat_assessment = some ⟨0, false⟩
    ∧ (run_aegis_workflow envC5).node = .terminal
    ∧ (run_aegis_workflow envC5).ost.aegis_state.workflow_status = "IN_PROGRESS"
    ∧ (run_aegis_workflow envC5).ost.aegis_state.workflow_status ≠ "COMPLETED" := by decide

/-- C4 counterexample: with `maxIterations = 3`, a run whose validator
returns exactly three consecutive REJECT verdicts (then an APPROVE) does not
escalate: the third REJECT only increments the counter to 3 and loops back,
and the run completes — so three consecutive REJECTs do not terminate the
run with ESCALATED. -/
theorem three_rejects_then_approve_completes :
    envC4.cfg.max_iterations = 3
    ∧ (∀ n < 3, envC4.agent3 n = .ok "REJECTED" "Reduce the speed parameter")
    ∧ (run_aegis_workflow envC4).node = .terminal
    ∧ (run_aegis_workflow envC4).ost.aegis_state.workflow_status = "COMPLETED"
    ∧ (run_aegis_workflow envC4).ost.aegis_state.workflow_status ≠ "ESCALATED"
    ∧ (run_aegis_workflow envC4).ost.aegis_state.iteration_count = 3
    ∧ (run_aegis_workflow envC4).a3_calls = 4 := by decide

namespace orchestrator

/-- Terminal configurations absorb any remaining fuel. -/
theorem runFuel_terminal (env : Env) (n : Nat) (rs : RunState) (h : rs.node = .terminal) :
    runFuel env n rs = rs := by
  cases n <;> simp [runFuel, h]

/-- One step of fuel peels one transition off a non-terminal configuration. -/
theorem runFuel_succ (env : Env) (n : Nat) (rs : RunState) (h : rs.node ≠ .terminal) :
    runFuel env (n + 1) rs = runFuel env n (stepNode env rs) := by
  simp [runFuel, h]

/-- Fuel composes: running `a + b` steps is running `a` then `b`. -/
theorem runFuel_add (env : Env) (a b : Nat) (rs : RunState) :
    runFuel env (a + b) rs = runFuel env b (runFuel env a rs) := by
  induction a generalizing rs with
  | zero => simp [runFuel]
  | succ a ih =>
    rw [Nat.succ_add]
    by_cases h : rs.node = .terminal
    · rw [runFuel_terminal env _ rs h, runFuel_terminal env _ rs h,
        runFuel_terminal env _ rs h]
    · rw [runFuel_succ env _ rs h, ih, runFuel_succ env _ rs h]

/-- The safety evaluation Agent 3 stores on a successful validator call. -/
@[simp] theorem agent_3_node_ok_safety (d r : String) (st : OrchestratorState) :
    (agent_3_node (.ok d r) st).aegis_state.safety_evaluation =
      some ⟨some (if d = "APPROVED" then "APPROVE" else "REJECT"),
        if d = "APPROVED" then none else some r, none⟩ := by
  simp [agent_3_node, add_log_entry]

/-- One REJECT-and-retry round of the rejection loop: from StrategyGeneration
with `iteration_count = a3c < 3`, a non-APPROVED validator decision brings
the run back to StrategyGeneration with the counter incremented. -/
theorem reject_round (env : Env) (a2c a3c : Nat) (ost : OrchestratorState) (d r : String)
    (hcfg : env.cfg = defaultConfig) (hag : env.agent3 a3c = .ok d r)
    (hd : ¬ d = "APPROVED") (hit : ost.aegis_state.iteration_count = a3c) (hk : a3c < 3) :
    runFuel env 2 ⟨.agent_2, ost, a2c, a3c⟩ =
      ⟨.agent_2,
        ⟨{ (agent_3_node (.ok d r) (agent_2_node (env.agent2 a2c) ost)).aegis_state with
            iteration_count := a3c + 1 },
          (agent_3_node (.ok d r) (agent_2_node (env.agent2 a2c) ost)).error⟩,
        a2c + 1, a3c + 1⟩ := by
  simp [runFuel, stepNode, route_after_agent_3, hag, hd, hit, hk, hcfg, defaultConfig]

/-- Existential form of `reject_round`, convenient for chaining rounds. -/
theorem reject_round_ex (env : Env) (a2c a3c : Nat) (ost : OrchestratorState) (d r : String)
    (hcfg : env.cfg = defaultConfig) (hag : env.agent3 a3c = .ok d r)
    (hd : ¬ d = "APPROVED") (hit : ost.aegis_state.iteration_count = a3c) (hk : a3c < 3) :
    ∃ ost₂, runFuel env 2 ⟨.agent_2, ost, a2c, a3c⟩ = ⟨.agent_2, ost₂, a2c + 1, a3c + 1⟩
      ∧ ost₂.aegis_state.iteration_count = a3c + 1 :=
  ⟨_, reject_round env a2c a3c ost d r hcfg hag hd hit hk, rfl⟩

/-- The final round of the rejection loop: with `iteration_count = 3` a
non-APPROVED decision routes to Escalation, which marks the run ESCALATED
with the counter left at 3. -/
theorem reject_final_round (env : Env) (a2c a3c : Nat) (ost : OrchestratorState)
    (d r : String) (hcfg : env.cfg = defaultConfig) (hag : env.agent3 a3c = .ok d r)
    (hd : ¬ d = "APPROVED") (hit : ost.aegis_state.iteration_count = 3) :
    (runFuel env 3 ⟨.agent_2, ost, a2c, a3c⟩).node = .terminal
    ∧ (runFuel env 3 ⟨.agent_2, ost, a2c, a3c⟩).ost.aegis_state.workflow_status = "ESCALATED"
    ∧ (runFuel env 3 ⟨.agent_2, ost, a2c, a3c⟩).ost.aegis_state.iteration_count = 3
    ∧ (runFuel env 3 ⟨.agent_2, ost, a2c, a3c⟩).a3_calls = a3c + 1 := by
  refine ⟨?_, ?_, ?_, ?_⟩ <;>
    simp [runFuel, stepNode, route_after_agent_3, human_escalation_node, add_log_entry,
      hag, hd, hit, hcfg, defaultConfig]

end orchestrator

/-- C4 (amended): with `maxIterations = 3`, a run whose Threat stage demands
action and whose Safety validator returns four consecutive non-APPROVED
(i.e. REJECT) verdicts terminates with status ESCALATED and
`iterationCount == 3` — the first three REJECTs are retry rounds and the
fourth escalates. -/
theorem four_rejects_escalates (aid : Nat) (a1 : Agent1Outcome) (a2 : Nat → Agent2Outcome)
    (ds rws : Nat → String)
    (h1 : route_after_agent_1 ((agent_1_node defaultConfig a1
        ⟨create_initial_state aid, none⟩).aegis_state) = "agent_2")
    (hd : ∀ n, n < 4 → ¬ ds n = "APPROVED") :
    (run_aegis_workflow
        ⟨defaultConfig, aid, a1, a2, fun n => .ok (ds n) (rws n)⟩).node = .terminal
    ∧ (run_aegis_workflow
        ⟨defaultConfig, aid, a1, a2,
          fun n => .ok (ds n) (rws n)⟩).ost.aegis_state.workflow_status = "ESCALATED"
    ∧ (run_aegis_workflow
        ⟨defaultConfig, aid, a1, a2,
          fun n => .ok (ds n) (rws n)⟩).ost.aegis_state.iteration_count = 3
    ∧ (run_aegis_workflow
        ⟨defaultConfig, aid, a1, a2, fun n => .ok (ds n) (rws n)⟩).a3_calls = 4 := by
  have hd0 := hd 0 (by norm_num)
  have hd1 := hd 1 (by norm_num)
  have hd2 := hd 2 (by norm_num)
  have hd3 := hd 3 (by norm_num)
  have hfuel : totalFuel ⟨defaultConfig, aid, a1, a2, fun n => .ok (ds n) (rws n)⟩ = 19 := rfl
  have h19 : (19 : ℕ) = 1 + (2 + (2 + (2 + (3 + 9)))) := by norm_num
  have e0 : runFuel ⟨defaultConfig, aid, a1, a2, fun n => .ok (ds n) (rws n)⟩ 1
      (initialRunState ⟨defaultConfig, aid, a1, a2, fun n => .ok (ds n) (rws n)⟩) =
      ⟨.agent_2, agent_1_node defaultConfig a1 ⟨create_initial_state aid, none⟩, 0, 0⟩ := by
    simp [runFuel, stepNode, initialRunState, h1]
  have hit0 : (agent_1_node defaultConfig a1
      ⟨create_initial_state aid, none⟩).aegis_state.iteration_count = 0 := by
    simp [create_initial_state]
  obtain ⟨o1, e1, hi1⟩ := reject_round_ex
    ⟨defaultConfig, aid, a1, a2, fun n => .ok (ds n) (rws n)⟩ 0 0
    (agent_1_node defaultConfig a1 ⟨create_initial_state aid, none⟩) (ds 0) (rws 0)
    rfl rfl hd0 hit0 (by norm_num)
  obtain ⟨o2, e2, hi2⟩ := reject_round_ex
    ⟨defaultConfig, aid, a1, a2, fun n => .ok (ds n) (rws n)⟩ (0 + 1) (0 + 1) o1
    (ds (0 + 1)) (rws (0 + 1)) rfl rfl hd1 hi1 (by norm_num)
  obtain ⟨o3, e3, hi3⟩ := reject_round_ex
    ⟨defaultConfig, aid, a1, a2, fun n => .ok (ds n) (rws n)⟩ (0 + 1 + 1) (0 + 1 + 1) o2
    (ds (0 + 1 + 1)) (rws (0 + 1 + 1)) rfl rfl hd2 hi2 (by norm_num)
  obtain ⟨hn, hs, hi, ha⟩ := reject_final_round
    ⟨defaultConfig, aid, a1, a2, fun n => .ok (ds n) (rws n)⟩ (0 + 1 + 1 + 1) (0 + 1 + 1 + 1)
    o3 (ds (0 + 1 + 1 + 1)) (rws (0 + 1 + 1 + 1)) rfl rfl hd3 hi3
  unfold run_aegis_workflow
  rw [hfuel, h19, runFuel_add, runFuel_add, runFuel_add, runFuel_add, runFuel_add,
    e0, e1, e2, e3, runFuel_terminal _ 9 _ hn]
  exact ⟨hn, hs, hi, ha⟩

/-- C4 witness: the theorem applied to a concrete always-rejecting
environment. -/
theorem four_rejects_escalates_witness :
    (route_after_agent_1 ((agent_1_node defaultConfig (.ok 9)
        ⟨create_initial_state 1, none⟩).aegis_state) = "agent_2")
    ∧ (∀ n, n < 4 → ¬ (fun _ : Nat => "REJECTED") n = "APPROVED")
    ∧ ((run_aegis_workflow
        ⟨defaultConfig, 1, .ok 9, fun _ => .ok [],
          fun _ => .ok "REJECTED" "r"⟩).node = .terminal
      ∧ (run_aegis_workflow
          ⟨defaultConfig, 1, .ok 9, fun _ => .ok [],
            fun _ => .ok "REJECTED" "r"⟩).ost.aegis_state.workflow_status = "ESCALATED"
      ∧ (run_aegis_workflow
          ⟨defaultConfig, 1, .ok 9, fun _ => .ok [],
            fun _ => .ok "REJECTED" "r"⟩).ost.aegis_state.iteration_count = 3
      ∧ (run_aegis_workflow
          ⟨defaultConfig, 1, .ok 9, fun _ => .ok [],
            fun _ => .ok "REJECTED" "r"⟩).a3_calls = 4) :=
  ⟨by decide, by decide,
    four_rejects_escalates 1 (.ok 9) (fun _ => .ok []) (fun _ => "REJECTED") (fun _ => "r")
      (by decide) (by decide)⟩

/-- C3: the iteration counter starts at 0 and, in every reachable
configuration, never exceeds `maxIterations`; a step changes it only on a
REJECT-and-retry transition (incrementing by one and looping back to
Strategy Generation); and a REJECT verdict arriving with the counter already
at `maxIterations` routes to Escalation, never back to Strategy
Generation. -/
theorem iteration_count_invariant (env : Env) (rs : RunState) (h : Reachable env rs) :
    (∀ aid, (create_initial_state aid).iteration_count = 0)
    ∧ rs.ost.aegis_state.iteration_count ≤ env.cfg.max_iterations
    ∧ ((stepNode env rs).ost.aegis_state.iteration_count = rs.ost.aegis_state.iteration_count
      ∨ (rs.node = .agent_3 ∧ verdictAfterAgent3 env rs ≠ "APPROVE"
        ∧ rs.ost.aegis_state.iteration_count < env.cfg.max_iterations
        ∧ (stepNode env rs).ost.aegis_state.iteration_count =
            rs.ost.aegis_state.iteration_count + 1
        ∧ (stepNode env rs).node = .agent_2))
    ∧ ((rs.node = .agent_3 ∧ verdictAfterAgent3 env rs ≠ "APPROVE"
        ∧ env.cfg.max_iterations ≤ rs.ost.aegis_state.iteration_count) →
      (stepNode env rs).node = .human_escalation ∧ (stepNode env rs).node ≠ .agent_2) := by
  have hstep : ∀ rs' : RunState,
      ((stepNode env rs').ost.aegis_state.iteration_count =
          rs'.ost.aegis_state.iteration_count
        ∨ (rs'.node = .agent_3 ∧ verdictAfterAgent3 env rs' ≠ "APPROVE"
          ∧ rs'.ost.aegis_state.iteration_count < env.cfg.max_iterations
          ∧ (stepNode env rs').ost.aegis_state.iteration_count =
              rs'.ost.aegis_state.iteration_count + 1
          ∧ (stepNode env rs').node = .agent_2))
      ∧ ((rs'.node = .agent_3 ∧ verdictAfterAgent3 env rs' ≠ "APPROVE"
          ∧ env.cfg.max_iterations ≤ rs'.ost.aegis_state.iteration_count) →
        (stepNode env rs').node = .human_escalation ∧ (stepNode env rs').node ≠ .agent_2) := by
    rintro ⟨n, ost, a2c, a3c⟩
    cases n with
    | agent_1 =>
      refine ⟨Or.inl ?_, ?_⟩
      · simp [stepNode]
      · rintro ⟨hh, -, -⟩
        cases hh
    | agent_2 =>
      refine ⟨Or.inl ?_, ?_⟩
      · simp [stepNode]
      · rintro ⟨hh, -, -⟩
        cases hh
    | agent_3 =>
      by_cases hv : verdictAfterAgent3 env ⟨.agent_3, ost, a2c, a3c⟩ = "APPROVE"
      · have hv' := hv
        unfold verdictAfterAgent3 at hv'
        refine ⟨Or.inl ?_, ?_⟩
        · simp [stepNode, route_after_agent_3, hv']
        · rintro ⟨-, hne, -⟩
          exact absurd hv hne
      · have hv' := hv
        unfold verdictAfterAgent3 at hv'
        by_cases hlt : ost.aegis_state.iteration_count < env.cfg.max_iterations
        · refine ⟨Or.inr ⟨rfl, hv, ?_, ?_, ?_⟩, ?_⟩
          · simpa using hlt
          · simp [stepNode, route_after_agent_3, hv', hlt]
          · simp [stepNode, route_after_agent_3, hv', hlt]
          · rintro ⟨-, -, hge⟩
            simp only at hge
            exact absurd hlt (not_lt.mpr hge)
        · refine ⟨Or.inl ?_, ?_⟩
          · simp [stepNode, route_after_agent_3, hv', hlt]
          · intro _
            constructor
            · simp [stepNode, route_after_agent_3, hv', hlt]
            · simp [stepNode, route_after_agent_3, hv', hlt]
    | final_decision =>
      refine ⟨Or.inl ?_, ?_⟩
      · simp [stepNode]
      · rintro ⟨hh, -, -⟩
        cases hh
    | human_escalation =>
      refine ⟨Or.inl ?_, ?_⟩
      · simp [stepNode]
      · rintro ⟨hh, -, -⟩
        cases hh
    | terminal =>
      refine ⟨Or.inl ?_, ?_⟩
      · simp [stepNode]
      · rintro ⟨hh, -, -⟩
        cases hh
  have hinv : ∀ rs' : RunState, Reachable env rs' →
      rs'.ost.aegis_state.iteration_count ≤ env.cfg.max_iterations := by
    intro rs' h'
    induction h' with
    | init => simp [initialRunState, create_initial_state]
    | step hr ih =>
      rcases (hstep _).1 with heq | ⟨-, -, hlt, hinc, -⟩
      · rw [heq]; exact ih
      · rw [hinc]; omega
  exact ⟨fun aid => rfl, hinv rs h, (hstep rs).1, (hstep rs).2⟩

/-- C3 witness: the theorem applied to the initial configuration of a
concrete environment. -/
theorem iteration_count_invariant_witness :
    (∀ aid, (create_initial_state aid).iteration_count = 0)
    ∧ (initialRunState envW).ost.aegis_state.iteration_count ≤ envW.cfg.max_iterations
    ∧ (((stepNode envW (initialRunState envW)).ost.aegis_state.iteration_count =
          (initialRunState envW).ost.aegis_state.iteration_count
      ∨ ((initialRunState envW).node = .agent_3
        ∧ verdictAfterAgent3 envW (initialRunState envW) ≠ "APPROVE"
        ∧ (initialRunState envW).ost.aegis_state.iteration_count < envW.cfg.max_iterations
        ∧ (stepNode envW (initialRunState envW)).ost.aegis_state.iteration_count =
            (initialRunState envW).ost.aegis_state.iteration_count + 1
        ∧ (stepNode envW (initialRunState envW)).node = .agent_2)))
    ∧ (((initialRunState envW).node = .agent_3
        ∧ verdictAfterAgent3 envW (initialRunState envW) ≠ "APPROVE"
        ∧ envW.cfg.max_iterations ≤ (initialRunState envW).ost.aegis_state.iteration_count) →
      (stepNode envW (initialRunState envW)).node = .human_escalation
        ∧ (stepNode envW (initialRunState envW)).node ≠ .agent_2) :=
  iteration_count_invariant envW (initialRunState envW) Reachable.init
